import Mathlib

/-!
Verification of the oktopus / pyMLE statistical-estimation toolkit.

Shallow embedding of the two source files:
  * src/pyMLE/core.py   (Likelihood, MultinomialLikelihood, PoissonLikelihood)
  * src/oktopus/loss.py (LossFunction, L1Norm)

Modelling conventions:
  * Python floats are modelled as real numbers; 1-D numpy arrays as lists of reals.
  * A caller-supplied Python callable takes a list of positional arguments; an
    argument is either a scalar or an array (PyVal).  The call f applied with the
    parameter vector unpacked positionally, written f(*params) in the source, is
    modelled by starCall; a call passing one tuple argument, written f(params) in
    the source, is modelled by vecCall.  This keeps the two calling conventions
    distinguishable, as the source relies on the distinction.
  * numpy elementwise arithmetic on equal-length arrays is zipWith; np.log and
    np.absolute are map; ndarray.sum and np.nansum are List.sum (exact reals have
    no NaN, so nansum and sum agree in this model).
  * Exceptions are modelled with Except PyError: AttributeError for reading the
    never-assigned opt_result attribute of an unfit instance, TypeError for a
    call with a wrong number of arguments or for calling None, IndexError for
    params[-1] on an empty tuple, LinAlgError for np.linalg.inv of a singular
    matrix.
  * autograd.jacobian and scipy.optimize.minimize are external collaborators:
    the embedding is parameterised over them (Jacobian, Minimizer).
-/

noncomputable section

/-- A scalar or a 1-D array: the two shapes of positional argument the source
passes to caller-supplied model functions. -/
inductive PyVal where
  | num : ℝ → PyVal
  | arr : List ℝ → PyVal

/-- A 1-D numpy array of floats. -/
abbrev Vec := List ℝ

/-- A caller-supplied Python callable returning a 1-D array. -/
abbrev PyFunc := List PyVal → Vec

/-- The Python exceptions the embedded code can raise. -/
inductive PyError where
  | attributeError
  | typeError
  | indexError
  | linAlgError
deriving DecidableEq

/-- The call f(*params): the parameter vector is unpacked into one scalar
positional argument per parameter. -/
def starCall (f : PyFunc) (params : Vec) : Vec :=
  f (params.map PyVal.num)

/-- The call f(t) with a single tuple argument t (no unpacking). -/
def vecCall (f : PyFunc) (t : Vec) : Vec :=
  f [PyVal.arr t]

/-- numpy elementwise multiplication. -/
def npMul (x y : Vec) : Vec := List.zipWith (fun a b => a * b) x y

/-- numpy elementwise division. -/
def npDiv (x y : Vec) : Vec := List.zipWith (fun a b => a / b) x y

/-- numpy elementwise subtraction. -/
def npSub (x y : Vec) : Vec := List.zipWith (fun a b => a - b) x y

/-- numpy elementwise addition. -/
def npAdd (x y : Vec) : Vec := List.zipWith (fun a b => a + b) x y

/-- np.log applied elementwise. -/
def npLog (x : Vec) : Vec := x.map Real.log

/-- np.absolute applied elementwise. -/
def npAbs (x : Vec) : Vec := x.map (fun a => |a|)

/-- np.sqrt applied elementwise. -/
def npSqrt (x : Vec) : Vec := x.map Real.sqrt

/-- scalar * array broadcasting. -/
def npSMul (c : ℝ) (x : Vec) : Vec := x.map (fun a => c * a)

/-- ndarray.sum(). -/
def npSum (x : Vec) : ℝ := x.sum

/-- np.nansum: over exact reals there is no NaN, so it is the plain sum. -/
def npNansum (x : Vec) : ℝ := x.sum

/-- The external Differentiation Provider: autograd.jacobian(f, argnum=i),
returning the partial-derivative function of f with respect to its i-th
positional argument. -/
abbrev Jacobian := PyFunc → ℕ → PyFunc

/-- The result object of scipy.optimize.minimize: optimal parameters, success
flag and solver diagnostics. -/
structure OptResult where
  x : Vec
  success : Bool
  nit : ℕ

/-- The external Optimizer Provider: scipy.optimize.minimize, taking the
objective, the initial guess and the method name. -/
abbrev Minimizer (α : Type) := (Vec → α) → Vec → String → OptResult

/-- The default value of the method argument of fit in both source files. -/
def defaultMethod : String := "Nelder-Mead"

/-- A 2-D numpy array: its size and an entry function.  Entries outside the
n × n block are uninitialised np.empty memory, modelled as 0 and never relied
upon. -/
structure NdArr where
  n : ℕ
  entry : ℕ → ℕ → ℝ

/-- The write fisher[i, j] = v into a matrix modelled as an entry function. -/
def matUpd (m : ℕ → ℕ → ℝ) (i j : ℕ) (v : ℝ) : ℕ → ℕ → ℝ :=
  fun a b => if a = i ∧ b = j then v else m a b

/-- One iteration of the pairwise loop body shared by both Fisher-matrix
methods: fisher[i, j] = v; fisher[j, i] = fisher[i, j], where v is the
upper-triangle value w i j and the mirror write reads the freshly written
entry, exactly as the source does. -/
def fimStep (w : ℕ → ℕ → ℝ) (m : ℕ → ℕ → ℝ) (ij : ℕ × ℕ) : ℕ → ℕ → ℝ :=
  matUpd (matUpd m ij.1 ij.2 (w ij.1 ij.2)) ij.2 ij.1
    (matUpd m ij.1 ij.2 (w ij.1 ij.2) ij.1 ij.2)

/-- The index pairs visited by the nested loops: for i in range(n), for j in
range(i, n), in loop order. -/
def upperPairs (n : ℕ) : List (ℕ × ℕ) :=
  (List.range n).flatMap (fun i => (List.range' i (n - i)).map (fun j => (i, j)))

/-- The nested pairwise loops run over the np.empty matrix (uninitialised
entries modelled as 0). -/
def fimFill (w : ℕ → ℕ → ℝ) (n : ℕ) : ℕ → ℕ → ℝ :=
  (upperPairs n).foldl (fimStep w) (fun _ _ => 0)

/-- The upper-triangle entry value computed inside both pairwise loops:
(grads[i](*opt_params) * grads[j](*opt_params) / f(*opt_params)).sum(). -/
def fimEntryFun (f : PyFunc) (grads : List PyFunc) (opt_params : Vec) (i j : ℕ) : ℝ :=
  npSum (npDiv (npMul (starCall (grads.getD i (fun _ => [])) opt_params)
                      (starCall (grads.getD j (fun _ => [])) opt_params))
               (starCall f opt_params))

/-- MultinomialLikelihood instance state: observed category counts, the
caller-supplied pmf model, and the opt_result attribute (absent until fit
assigns it). -/
structure MultinomialLikelihood where
  data : Vec
  pmf : PyFunc
  opt_result : Option OptResult

/-- MultinomialLikelihood.__init__(data, pmf): opt_result is not yet assigned. -/
def MultinomialLikelihood.init (data : Vec) (pmf : PyFunc) : MultinomialLikelihood :=
  ⟨data, pmf, none⟩

/-- The n_counts property: self.data.sum(). -/
def MultinomialLikelihood.n_counts (M : MultinomialLikelihood) : ℝ :=
  M.data.sum

/-- MultinomialLikelihood.evaluate:
return - (self.data * np.log(self.pmf(*params))).sum(). -/
def MultinomialLikelihood.evaluate (M : MultinomialLikelihood) (params : Vec) : ℝ :=
  -(npSum (npMul M.data (npLog (starCall M.pmf params))))

/-- The matrix MultinomialLikelihood.fisher_information_matrix assembles from a
fit result opt: grad_pmf[i] = jacobian(self.pmf, argnum=i) for each i, the
nested pairwise loops fill the upper triangle and mirror it, and the result is
scaled by self.n_counts (scaling the whole array elementwise). -/
def MultinomialLikelihood.fisherMatrixAt (jac : Jacobian) (M : MultinomialLikelihood)
    (opt : OptResult) : NdArr :=
  ⟨opt.x.length, fun a b =>
    M.n_counts *
      fimFill (fimEntryFun M.pmf ((List.range opt.x.length).map (fun i => jac M.pmf i)) opt.x)
        opt.x.length a b⟩

/-- MultinomialLikelihood.fisher_information_matrix: reading self.opt_result on
an unfit instance raises AttributeError; otherwise the matrix is assembled from
the stored fit result. -/
def MultinomialLikelihood.fisher_information_matrix (jac : Jacobian)
    (M : MultinomialLikelihood) : Except PyError NdArr :=
  match M.opt_result with
  | none => .error .attributeError
  | some opt => .ok (M.fisherMatrixAt jac opt)

/-- PoissonLikelihood instance state. -/
structure PoissonLikelihood where
  data : Vec
  mean : PyFunc
  opt_result : Option OptResult

/-- PoissonLikelihood.__init__(data, mean). -/
def PoissonLikelihood.init (data : Vec) (mean : PyFunc) : PoissonLikelihood :=
  ⟨data, mean, none⟩

/-- PoissonLikelihood.evaluate:
return (self.mean(*params) - self.data * np.log(self.mean(*params))).sum(). -/
def PoissonLikelihood.evaluate (P : PoissonLikelihood) (params : Vec) : ℝ :=
  npSum (npSub (starCall P.mean params) (npMul P.data (npLog (starCall P.mean params))))

/-- The matrix the body of PoissonLikelihood.fisher_information_matrix assembles
from a fit result: same pairwise construction as the multinomial case, using
self.mean and with no n_counts scaling. -/
def PoissonLikelihood.fisherMatrixAt (jac : Jacobian) (P : PoissonLikelihood)
    (opt : OptResult) : NdArr :=
  ⟨opt.x.length, fun a b =>
    fimFill (fimEntryFun P.mean ((List.range opt.x.length).map (fun i => jac P.mean i)) opt.x)
      opt.x.length a b⟩

/-- The body of PoissonLikelihood.fisher_information_matrix as written (with the
instance bound): AttributeError on an unfit instance, otherwise the assembled
matrix. -/
def PoissonLikelihood.fisher_information_matrix_body (jac : Jacobian)
    (P : PoissonLikelihood) : Except PyError NdArr :=
  match P.opt_result with
  | none => .error .attributeError
  | some opt => .ok (P.fisherMatrixAt jac opt)

/-- Number of formal parameters declared by the source line
def fisher_information_matrix(): in PoissonLikelihood (core.py line 192): the
def omits self. -/
def PoissonLikelihood.fisherDefParamCount : ℕ := 0

/-- A bound-method call of PoissonLikelihood.fisher_information_matrix: Python
passes the instance as one positional argument, so the call succeeds only if
the def declares exactly one parameter; the source declares zero, so every call
raises TypeError before the body runs. -/
def PoissonLikelihood.fisher_information_matrix (jac : Jacobian)
    (P : PoissonLikelihood) : Except PyError NdArr :=
  if PoissonLikelihood.fisherDefParamCount = 1 then
    P.fisher_information_matrix_body jac
  else
    .error .typeError

/-- NdArr viewed as a square Mathlib matrix. -/
def NdArr.toMatrix (A : NdArr) : Matrix (Fin A.n) (Fin A.n) ℝ :=
  Matrix.of (fun i j => A.entry i j)

open Classical in
/-- np.linalg.inv: raises LinAlgError on a singular matrix, otherwise returns
the inverse. -/
def npLinalgInv (A : NdArr) : Except PyError NdArr :=
  if A.toMatrix.det = 0 then
    .error .linAlgError
  else
    .ok ⟨A.n, fun a b =>
      if h : a < A.n ∧ b < A.n then A.toMatrix⁻¹ ⟨a, h.1⟩ ⟨b, h.2⟩ else 0⟩

/-- np.diag of a square array. -/
def npDiag (A : NdArr) : Vec :=
  (List.range A.n).map (fun i => A.entry i i)

/-- Likelihood.uncertainties, defined once on the abstract base class:
inv_fisher = np.linalg.inv(self.fisher_information_matrix());
return np.sqrt(np.diag(inv_fisher)).  It is parameterised by the result of the
fisher_information_matrix call so the two variants share it unchanged. -/
def Likelihood.uncertaintiesImpl (fim : Except PyError NdArr) : Except PyError Vec := do
  let fisher ← fim
  let inv_fisher ← npLinalgInv fisher
  pure (npSqrt (npDiag inv_fisher))

/-- uncertainties on a MultinomialLikelihood (inherited from Likelihood). -/
def MultinomialLikelihood.uncertainties (jac : Jacobian) (M : MultinomialLikelihood) :
    Except PyError Vec :=
  Likelihood.uncertaintiesImpl (M.fisher_information_matrix jac)

/-- uncertainties on a PoissonLikelihood (inherited from Likelihood). -/
def PoissonLikelihood.uncertainties (jac : Jacobian) (P : PoissonLikelihood) :
    Except PyError Vec :=
  Likelihood.uncertaintiesImpl (P.fisher_information_matrix jac)

/-- Likelihood.fit on a MultinomialLikelihood: delegates to the Optimizer
Provider with self.evaluate, x0 and the method name, stores whatever comes back
in self.opt_result and returns it. -/
def MultinomialLikelihood.fit (minimize : Minimizer ℝ) (M : MultinomialLikelihood)
    (x0 : Vec) (method : String) : OptResult × MultinomialLikelihood :=
  (minimize M.evaluate x0 method, { M with opt_result := some (minimize M.evaluate x0 method) })

/-- Likelihood.fit on a MultinomialLikelihood with the method argument left at
its default. -/
def MultinomialLikelihood.fitDefault (minimize : Minimizer ℝ) (M : MultinomialLikelihood)
    (x0 : Vec) : OptResult × MultinomialLikelihood :=
  M.fit minimize x0 defaultMethod

/-- Likelihood.fit on a PoissonLikelihood. -/
def PoissonLikelihood.fit (minimize : Minimizer ℝ) (P : PoissonLikelihood)
    (x0 : Vec) (method : String) : OptResult × PoissonLikelihood :=
  (minimize P.evaluate x0 method, { P with opt_result := some (minimize P.evaluate x0 method) })

/-- Likelihood.fit on a PoissonLikelihood with the default method. -/
def PoissonLikelihood.fitDefault (minimize : Minimizer ℝ) (P : PoissonLikelihood)
    (x0 : Vec) : OptResult × PoissonLikelihood :=
  P.fit minimize x0 defaultMethod

/-- Which of the two private evaluation methods L1Norm.__init__ bound to
self._evaluate. -/
inductive EvalPath where
  | wo
  | w
deriving DecidableEq

/-- L1Norm instance state: observed data, the caller-supplied model, the
_regularization attribute behind the regularization property, the _evaluate
slot bound at construction, and the opt_result attribute assigned by fit. -/
structure L1Norm where
  data : Vec
  model : PyFunc
  regularizationSlot : Option PyFunc
  evaluatePath : EvalPath
  opt_result : Option OptResult

/-- L1Norm.__init__(data, model, regularization=None): the regularization
property setter stores the argument in _regularization (its two branches store
the same value), and _evaluate is bound to _evaluate_wo_regularization when the
stored regularization is None, to _evaluate_w_regularization otherwise. -/
def L1Norm.init (data : Vec) (model : PyFunc) (regularization : Option PyFunc) : L1Norm :=
  { data := data
    model := model
    regularizationSlot := regularization
    evaluatePath := if regularization.isNone then .wo else .w
    opt_result := none }

/-- The regularization property getter: return self._regularization. -/
def L1Norm.regularization (s : L1Norm) : Option PyFunc :=
  s.regularizationSlot

/-- The regularization property setter: both branches of its if store the given
value in _regularization; nothing else changes (in particular _evaluate is not
rebound). -/
def L1Norm.regularization_set (s : L1Norm) (func : Option PyFunc) : L1Norm :=
  if func.isSome then
    { s with regularizationSlot := func }
  else
    { s with regularizationSlot := none }

/-- L1Norm._evaluate_wo_regularization(self, *params):
return np.nansum(np.absolute(self.data - self.model(*params))). -/
def L1Norm.evaluate_wo_regularization (s : L1Norm) (params : Vec) : Except PyError ℝ :=
  .ok (npNansum (npAbs (npSub s.data (starCall s.model params))))

/-- L1Norm._evaluate_w_regularization(self, *params):
return np.nansum(np.absolute(self.data - self.model(params[:-1]))
                 + params[-1] * self.regularization(params[:-1])).
The model and the regularization receive the remaining parameters as a single
tuple argument; params[-1] raises IndexError on an empty tuple, and calling a
None regularization raises TypeError. -/
def L1Norm.evaluate_w_regularization (s : L1Norm) (params : Vec) : Except PyError ℝ :=
  match params.getLast? with
  | none => .error .indexError
  | some wlast =>
    match s.regularizationSlot with
    | none => .error .typeError
    | some reg =>
      .ok (npNansum (npAdd (npAbs (npSub s.data (vecCall s.model params.dropLast)))
                           (npSMul wlast (vecCall reg params.dropLast))))

/-- L1Norm.evaluate(self, params): return self._evaluate(*params), dispatching
through the slot bound at construction. -/
def L1Norm.evaluate (s : L1Norm) (params : Vec) : Except PyError ℝ :=
  match s.evaluatePath with
  | .wo => s.evaluate_wo_regularization params
  | .w => s.evaluate_w_regularization params

/-- LossFunction.fit on an L1Norm: same template as Likelihood.fit. -/
def L1Norm.fit (minimize : Minimizer (Except PyError ℝ)) (s : L1Norm)
    (x0 : Vec) (method : String) : OptResult × L1Norm :=
  (minimize s.evaluate x0 method, { s with opt_result := some (minimize s.evaluate x0 method) })

/-- LossFunction.fit on an L1Norm with the default method. -/
def L1Norm.fitDefault (minimize : Minimizer (Except PyError ℝ)) (s : L1Norm)
    (x0 : Vec) : OptResult × L1Norm :=
  s.fit minimize x0 defaultMethod

/-!
Definitions written from the words of the specification, for comparison with
the embedded source code.
-/

/-- Formula from the spec for one multinomial Fisher-matrix entry (section 4.2
and claim C1): evaluate the gradient functions of pmf with respect to
arguments i and j at the fitted parameters, multiply element-wise, divide by
pmf at the fitted parameters, sum over categories, scale by the total observed
count. -/
def specMultinomialFisherEntry (pmf : PyFunc) (jac : Jacobian) (theta : Vec)
    (total : ℝ) (i j : ℕ) : ℝ :=
  total *
    npSum (npDiv (npMul (starCall (jac pmf i) theta) (starCall (jac pmf j) theta))
                 (starCall pmf theta))

/-- Formula from the spec for one Poisson Fisher-matrix entry (section 4.3 and
claim C2): as in the multinomial case but without the total-count factor and
with mean in place of pmf. -/
def specPoissonFisherEntry (mean : PyFunc) (jac : Jacobian) (theta : Vec) (i j : ℕ) : ℝ :=
  npSum (npDiv (npMul (starCall (jac mean i) theta) (starCall (jac mean j) theta))
               (starCall mean theta))

/-- Formula from the spec for the multinomial negative log likelihood (claim
C3): -sum(data * log(pmf(params))), written as an indexed sum over categories,
where p is the value of pmf at the positionally unpacked parameters. -/
def specMultinomialNLL (data p : Vec) : ℝ :=
  -(∑ k ∈ Finset.range data.length, data.getD k 0 * Real.log (p.getD k 0))

/-- Formula from the spec for the Poisson negative log likelihood (claim C4):
sum(mean(params) - data * log(mean(params))), written as an indexed sum, where
m is the value of mean at the positionally unpacked parameters. -/
def specPoissonNLL (data m : Vec) : ℝ :=
  ∑ k ∈ Finset.range data.length, (m.getD k 0 - data.getD k 0 * Real.log (m.getD k 0))

/-- Sum of absolute residuals between data and a model output (claim C9). -/
def sumAbsResiduals (d m : Vec) : ℝ :=
  (List.zipWith (fun a b => |a - b|) d m).sum

/-- A constant model function used in concrete checks. -/
def constFun (c : ℝ) : PyFunc := fun _ => [c]

/-- A Differentiation Provider used in concrete checks: it returns the function
itself as its own partial derivative. -/
def jacId : Jacobian := fun f _ => f

/-- A concrete fit result used in concrete checks. -/
def optHalf : OptResult := ⟨[0.5], true, 3⟩

/-- A fitted MultinomialLikelihood instance for concrete checks. -/
def mlExample : MultinomialLikelihood := ⟨[2, 3], constFun 1, some optHalf⟩

/-- A two-category constant pmf for concrete checks. -/
def berPmf : PyFunc := fun _ => [0.4, 0.6]

/-- The worked two-category example of the source docstring, unfit. -/
def mlBer : MultinomialLikelihood := ⟨[20, 30], berPmf, none⟩

/-- A fitted PoissonLikelihood instance for concrete checks. -/
def plExample : PoissonLikelihood := ⟨[2], constFun 1, some optHalf⟩

/-- The 1 × 1 all-ones array, an invertible matrix for concrete checks. -/
def oneNdArr : NdArr := ⟨1, fun _ _ => 1⟩

/-!
Lemmas about the pairwise upper-triangle-then-mirror fill loop.
-/

/-- One loop iteration writes w i j at (i, j) and (j, i) and leaves every other
entry unchanged. -/
theorem fimStep_eq (w : ℕ → ℕ → ℝ) (m : ℕ → ℕ → ℝ) (i j a b : ℕ) :
    fimStep w m (i, j) a b =
      if (a = i ∧ b = j) ∨ (a = j ∧ b = i) then w i j else m a b := by
  simp only [fimStep, matUpd]
  split_ifs <;> first | rfl | tauto

/-- Entries whose normalised index pair is never visited keep their initial
value. -/
theorem foldl_fimStep_untouched (w : ℕ → ℕ → ℝ) (L : List (ℕ × ℕ)) :
    ∀ (m : ℕ → ℕ → ℝ) (a b : ℕ),
      (∀ p ∈ L, p.1 ≤ p.2) → (min a b, max a b) ∉ L →
      L.foldl (fimStep w) m a b = m a b := by
  induction L with
  | nil =>
    intro m a b _ _
    rfl
  | cons hd tl ih =>
    intro m a b hle hmem
    obtain ⟨i, j⟩ := hd
    have hij : i ≤ j := hle (i, j) (List.mem_cons_self _ _)
    rw [List.foldl_cons]
    rw [ih _ a b (fun p hp => hle p (List.mem_cons_of_mem _ hp))
        (fun hm => hmem (List.mem_cons_of_mem _ hm))]
    rw [fimStep_eq, if_neg]
    rintro (⟨rfl, rfl⟩ | ⟨rfl, rfl⟩)
    · exact hmem (by rw [min_eq_left hij, max_eq_right hij]; exact List.mem_cons_self _ _)
    · exact hmem (by rw [min_eq_right hij, max_eq_left hij]; exact List.mem_cons_self _ _)

/-- Entries whose normalised index pair is visited end up holding the value
computed for that pair (every visited pair is normalised, so revisits write the
same value). -/
theorem foldl_fimStep_covers (w : ℕ → ℕ → ℝ) (L : List (ℕ × ℕ)) :
    ∀ (m : ℕ → ℕ → ℝ) (a b : ℕ),
      (∀ p ∈ L, p.1 ≤ p.2) → (min a b, max a b) ∈ L →
      L.foldl (fimStep w) m a b = w (min a b) (max a b) := by
  induction L with
  | nil =>
    intro m a b _ hmem
    exact absurd hmem (List.not_mem_nil _)
  | cons hd tl ih =>
    intro m a b hle hmem
    obtain ⟨i, j⟩ := hd
    have hij : i ≤ j := hle (i, j) (List.mem_cons_self _ _)
    have hle' : ∀ p ∈ tl, p.1 ≤ p.2 := fun p hp => hle p (List.mem_cons_of_mem _ hp)
    rw [List.foldl_cons]
    by_cases hhd : (min a b, max a b) = (i, j)
    · by_cases htl : (min a b, max a b) ∈ tl
      · exact ih _ a b hle' htl
      · rw [foldl_fimStep_untouched w tl _ a b hle' htl]
        rw [fimStep_eq]
        injection hhd with h1 h2
        rw [← h1, ← h2]
        have hcond : (a = min a b ∧ b = max a b) ∨ (a = max a b ∧ b = min a b) := by
          rcases le_total a b with hab | hba
          · exact Or.inl ⟨(min_eq_left hab).symm, (max_eq_right hab).symm⟩
          · exact Or.inr ⟨(max_eq_left hba).symm, (min_eq_right hba).symm⟩
        rw [if_pos hcond]
    · have htl : (min a b, max a b) ∈ tl := by
        rcases List.mem_cons.mp hmem with hm | hm
        · exact absurd hm hhd
        · exact hm
      exact ih _ a b hle' htl

/-- The visited pairs are exactly the upper-triangle pairs. -/
theorem upperPairs_mem {n i j : ℕ} : (i, j) ∈ upperPairs n ↔ i ≤ j ∧ j < n := by
  unfold upperPairs
  simp only [List.mem_flatMap, List.mem_map, List.mem_range, List.mem_range'_1, Prod.mk.injEq]
  constructor
  · rintro ⟨a, ha, b, ⟨hab1, hab2⟩, rfl, rfl⟩
    omega
  · rintro ⟨hij, hj⟩
    exact ⟨i, by omega, j, ⟨by omega, by omega⟩, rfl, rfl⟩

/-- Every visited pair is normalised (row index at most column index). -/
theorem upperPairs_le (n : ℕ) : ∀ p ∈ upperPairs n, p.1 ≤ p.2 := by
  intro p hp
  obtain ⟨i, j⟩ := p
  exact (upperPairs_mem.mp hp).1

/-- Closed form of the filled matrix inside the n × n block. -/
theorem fimFill_eq (w : ℕ → ℕ → ℝ) (n a b : ℕ) (ha : a < n) (hb : b < n) :
    fimFill w n a b = w (min a b) (max a b) := by
  unfold fimFill
  exact foldl_fimStep_covers w (upperPairs n) _ a b (upperPairs_le n)
    (upperPairs_mem.mpr ⟨min_le_max, max_lt ha hb⟩)

/-- Outside the n × n block the loop never writes. -/
theorem fimFill_out (w : ℕ → ℕ → ℝ) (n a b : ℕ) (h : ¬(a < n ∧ b < n)) :
    fimFill w n a b = 0 := by
  have hnm : (min a b, max a b) ∉ upperPairs n := by
    intro hmem
    have hm := upperPairs_mem.mp hmem
    exact h ⟨lt_of_le_of_lt (le_max_left a b) hm.2, lt_of_le_of_lt (le_max_right a b) hm.2⟩
  unfold fimFill
  exact foldl_fimStep_untouched w (upperPairs n) _ a b (upperPairs_le n) hnm

/-- The filled matrix is exactly symmetric, at every index. -/
theorem fimFill_symm (w : ℕ → ℕ → ℝ) (n a b : ℕ) : fimFill w n a b = fimFill w n b a := by
  by_cases ha : a < n
  · by_cases hb : b < n
    · rw [fimFill_eq w n a b ha hb, fimFill_eq w n b a hb ha, min_comm, max_comm]
    · rw [fimFill_out w n a b (by tauto), fimFill_out w n b a (by tauto)]
  · rw [fimFill_out w n a b (by tauto), fimFill_out w n b a (by tauto)]

/-- Reading back the gradient list built by the first loop. -/
theorem getD_map_range {α : Type} (f : ℕ → α) (n i : ℕ) (h : i < n) (d : α) :
    ((List.range n).map f).getD i d = f i := by
  rw [List.getD_eq_getElem?_getD, List.getElem?_map, List.getElem?_range h]
  rfl

/-- numpy elementwise multiplication commutes. -/
theorem npMul_comm (x y : Vec) : npMul x y = npMul y x :=
  List.zipWith_comm_of_comm _ mul_comm x y

/-- Inside the n × n block, the filled matrix realises the pairwise gradient
formula at every index pair, mirrored from the upper triangle. -/
theorem fimEntryFun_eval (f : PyFunc) (jac : Jacobian) (theta : Vec) (n a b : ℕ)
    (ha : a < n) (hb : b < n) :
    fimFill (fimEntryFun f ((List.range n).map (fun i => jac f i)) theta) n a b =
      npSum (npDiv (npMul (starCall (jac f a) theta) (starCall (jac f b) theta))
                   (starCall f theta)) := by
  rw [fimFill_eq _ n a b ha hb]
  unfold fimEntryFun
  rw [getD_map_range (fun i => jac f i) n (min a b) (lt_of_le_of_lt (min_le_left a b) ha)
        (fun _ => []),
      getD_map_range (fun i => jac f i) n (max a b) (max_lt ha hb) (fun _ => [])]
  rcases le_total a b with hab | hba
  · rw [min_eq_left hab, max_eq_right hab]
  · rw [min_eq_right hba, max_eq_left hba, npMul_comm]

/-!
Lemmas converting the elementwise numpy pipelines into indexed sums.
-/

/-- (data * np.log(p)).sum() as an indexed sum over categories. -/
theorem npSum_mult (d p : Vec) (h : p.length = d.length) :
    npSum (npMul d (npLog p)) =
      ∑ k ∈ Finset.range d.length, d.getD k 0 * Real.log (p.getD k 0) := by
  unfold npSum npMul npLog
  induction d generalizing p with
  | nil => simp
  | cons a d ih =>
    cases p with
    | nil => simp at h
    | cons b p =>
      simp only [List.map_cons, List.zipWith_cons_cons, List.sum_cons, List.length_cons]
      rw [Finset.sum_range_succ']
      simp only [List.getD_cons_succ, List.getD_cons_zero]
      rw [ih p (by simpa using h)]
      ring

/-- (m - data * np.log(m)).sum() as an indexed sum over observations. -/
theorem npSum_poisson (mv d : Vec) (h : mv.length = d.length) :
    npSum (npSub mv (npMul d (npLog mv))) =
      ∑ k ∈ Finset.range d.length,
        (mv.getD k 0 - d.getD k 0 * Real.log (mv.getD k 0)) := by
  unfold npSum npSub npMul npLog
  induction mv generalizing d with
  | nil =>
    cases d with
    | nil => simp
    | cons b d => simp at h
  | cons a mv ih =>
    cases d with
    | nil => simp at h
    | cons b d =>
      simp only [List.map_cons, List.zipWith_cons_cons, List.sum_cons, List.length_cons]
      rw [Finset.sum_range_succ']
      simp only [List.getD_cons_succ, List.getD_cons_zero]
      rw [ih d (by simpa using h)]
      ring

/-- np.absolute(d - m) is the elementwise absolute residual vector. -/
theorem npAbs_npSub (d m : Vec) :
    npAbs (npSub d m) = List.zipWith (fun a b => |a - b|) d m := by
  unfold npAbs npSub
  rw [List.map_zipWith]

/-- np.nansum(res + c * r) splits into the two sums when the arrays have equal
length. -/
theorem npNansum_add_smul (res r : Vec) (c : ℝ) (h : res.length = r.length) :
    npNansum (npAdd res (npSMul c r)) = res.sum + c * r.sum := by
  unfold npNansum npAdd npSMul
  induction res generalizing r with
  | nil =>
    cases r with
    | nil => simp
    | cons b r => simp at h
  | cons a res ih =>
    cases r with
    | nil => simp at h
    | cons b r =>
      simp only [List.map_cons, List.zipWith_cons_cons, List.sum_cons]
      rw [ih r (by simpa using h)]
      ring

/-!
Claim theorems.
-/

/-- C1: for every MultinomialLikelihood with a stored fit result of n
parameters, fisher_information_matrix returns the n × n matrix built by taking
the gradient function of pmf with respect to each argument, and whose every
entry (a, b) equals the total observed count sum(data) times the category sum
of grad_a pmf * grad_b pmf / pmf evaluated at the fitted parameters; the upper
triangle is computed once and mirrored, so the closed form holds at every
index pair. -/
theorem multinomial_fisher_information_spec (M : MultinomialLikelihood) (jac : Jacobian)
    (opt : OptResult) (a b : ℕ) (hfit : M.opt_result = some opt)
    (ha : a < opt.x.length) (hb : b < opt.x.length) :
    M.fisher_information_matrix jac = .ok (M.fisherMatrixAt jac opt) ∧
    (M.fisherMatrixAt jac opt).n = opt.x.length ∧
    (M.fisherMatrixAt jac opt).entry a b =
      specMultinomialFisherEntry M.pmf jac opt.x M.n_counts a b := by
  refine ⟨?_, rfl, ?_⟩
  · unfold MultinomialLikelihood.fisher_information_matrix
    rw [hfit]
  · have h0 : (M.fisherMatrixAt jac opt).entry a b =
        M.n_counts *
          fimFill (fimEntryFun M.pmf ((List.range opt.x.length).map (fun i => jac M.pmf i)) opt.x)
            opt.x.length a b := rfl
    rw [h0, fimEntryFun_eval M.pmf jac opt.x opt.x.length a b ha hb]
    rfl

/-- Witness for C1 at a concrete fitted instance. -/
theorem multinomial_fisher_information_spec_witness :
    mlExample.opt_result = some optHalf ∧ 0 < optHalf.x.length ∧
    (mlExample.fisher_information_matrix jacId = .ok (mlExample.fisherMatrixAt jacId optHalf) ∧
      (mlExample.fisherMatrixAt jacId optHalf).n = optHalf.x.length ∧
      (mlExample.fisherMatrixAt jacId optHalf).entry 0 0 =
        specMultinomialFisherEntry mlExample.pmf jacId optHalf.x mlExample.n_counts 0 0) :=
  ⟨rfl, by decide,
    multinomial_fisher_information_spec mlExample jacId optHalf 0 0 rfl (by decide) (by decide)⟩

/-- C2: the source def of PoissonLikelihood.fisher_information_matrix omits the
self parameter, so every bound call raises TypeError instead of returning a
matrix; the body as written (with the instance bound) would assemble exactly
the claimed unscaled Fisher matrix, structurally identical to the multinomial
construction with mean in place of pmf and no total-count factor. -/
theorem poisson_fisher_information_bug (P : PoissonLikelihood) (jac : Jacobian)
    (opt : OptResult) (a b : ℕ) (hfit : P.opt_result = some opt)
    (ha : a < opt.x.length) (hb : b < opt.x.length) :
    P.fisher_information_matrix jac = .error .typeError ∧
    P.fisher_information_matrix_body jac = .ok (P.fisherMatrixAt jac opt) ∧
    (P.fisherMatrixAt jac opt).entry a b = specPoissonFisherEntry P.mean jac opt.x a b := by
  refine ⟨rfl, ?_, ?_⟩
  · unfold PoissonLikelihood.fisher_information_matrix_body
    rw [hfit]
  · have h0 : (P.fisherMatrixAt jac opt).entry a b =
        fimFill (fimEntryFun P.mean ((List.range opt.x.length).map (fun i => jac P.mean i)) opt.x)
          opt.x.length a b := rfl
    rw [h0, fimEntryFun_eval P.mean jac opt.x opt.x.length a b ha hb]
    rfl

/-- Witness for C2 at a concrete fitted instance. -/
theorem poisson_fisher_information_bug_witness :
    plExample.opt_result = some optHalf ∧ 0 < optHalf.x.length ∧
    (plExample.fisher_information_matrix jacId = .error .typeError ∧
      plExample.fisher_information_matrix_body jacId = .ok (plExample.fisherMatrixAt jacId optHalf) ∧
      (plExample.fisherMatrixAt jacId optHalf).entry 0 0 =
        specPoissonFisherEntry plExample.mean jacId optHalf.x 0 0) :=
  ⟨rfl, by decide,
    poisson_fisher_information_bug plExample jacId optHalf 0 0 rfl (by decide) (by decide)⟩

/-- C3: MultinomialLikelihood.evaluate(params) returns
-sum(data * log(pmf(params))), with the pmf receiving the parameters unpacked
positionally, one scalar argument per parameter (starCall), not as a single
vector. -/
theorem multinomial_evaluate_spec (M : MultinomialLikelihood) (params : Vec)
    (h : (starCall M.pmf params).length = M.data.length) :
    M.evaluate params = specMultinomialNLL M.data (starCall M.pmf params) := by
  unfold MultinomialLikelihood.evaluate specMultinomialNLL
  rw [npSum_mult M.data (starCall M.pmf params) h]

/-- Witness for C3 on the worked two-category example. -/
theorem multinomial_evaluate_spec_witness :
    (starCall mlBer.pmf [0.4]).length = mlBer.data.length ∧
    mlBer.evaluate [0.4] = specMultinomialNLL mlBer.data (starCall mlBer.pmf [0.4]) :=
  ⟨rfl, multinomial_evaluate_spec mlBer [0.4] rfl⟩

/-- C4: PoissonLikelihood.evaluate(params) returns
sum(mean(params) - data * log(mean(params))), the negative log likelihood up to
an additive data-only constant, with the mean receiving the parameters
unpacked positionally. -/
theorem poisson_evaluate_spec (P : PoissonLikelihood) (params : Vec)
    (h : (starCall P.mean params).length = P.data.length) :
    P.evaluate params = specPoissonNLL P.data (starCall P.mean params) := by
  unfold PoissonLikelihood.evaluate specPoissonNLL
  rw [npSum_poisson (starCall P.mean params) P.data h]

/-- Witness for C4 at a concrete instance. -/
theorem poisson_evaluate_spec_witness :
    (starCall plExample.mean [0.5]).length = plExample.data.length ∧
    plExample.evaluate [0.5] = specPoissonNLL plExample.data (starCall plExample.mean [0.5]) :=
  ⟨rfl, poisson_evaluate_spec plExample [0.5] rfl⟩

/-- C5: on freshly constructed, never-fit instances both
fisher_information_matrix and uncertainties fail.  The MultinomialLikelihood
calls fail with AttributeError from reading the missing opt_result attribute
(the concrete realisation of the spec's PreconditionError); the
PoissonLikelihood calls fail too, but with TypeError, because its
fisher_information_matrix def omits the self parameter, so the missing-fit
precondition is never even reached. -/
theorem unfit_instance_errors (data : Vec) (pmf mean : PyFunc) (jac : Jacobian) :
    (MultinomialLikelihood.init data pmf).fisher_information_matrix jac
        = .error .attributeError ∧
    (MultinomialLikelihood.init data pmf).uncertainties jac = .error .attributeError ∧
    (PoissonLikelihood.init data mean).fisher_information_matrix jac = .error .typeError ∧
    (PoissonLikelihood.init data mean).uncertainties jac = .error .typeError :=
  ⟨rfl, rfl, rfl, rfl⟩

/-- C6: the Fisher matrix assembled from any fit result is exactly symmetric,
entry by entry, by construction: the upper-triangle value is computed once and
mirrored.  This holds for the matrix MultinomialLikelihood's method returns
and for the one PoissonLikelihood's body assembles. -/
theorem fisher_matrix_symm (M : MultinomialLikelihood) (P : PoissonLikelihood)
    (jac : Jacobian) (opt optP : OptResult) (a b : ℕ) :
    (M.fisherMatrixAt jac opt).entry a b = (M.fisherMatrixAt jac opt).entry b a ∧
    (P.fisherMatrixAt jac optP).entry a b = (P.fisherMatrixAt jac optP).entry b a := by
  constructor
  · show M.n_counts * fimFill _ _ a b = M.n_counts * fimFill _ _ b a
    rw [fimFill_symm]
  · show fimFill _ _ a b = fimFill _ _ b a
    rw [fimFill_symm]

/-- C7: uncertainties, defined once on the Likelihood base class and inherited
unchanged by both variants (last two conjuncts), inverts the Fisher matrix,
fails with LinAlgError (the spec's SingularMatrixError) exactly when that
matrix is not invertible, and otherwise returns the elementwise square root of
the diagonal of the inverse, one entry per parameter. -/
theorem uncertainties_spec (F : NdArr) :
    (¬IsUnit F.toMatrix → Likelihood.uncertaintiesImpl (.ok F) = .error .linAlgError) ∧
    (IsUnit F.toMatrix →
      ∃ u, Likelihood.uncertaintiesImpl (.ok F) = .ok u ∧ u.length = F.n ∧
        ∀ i, ∀ hi : i < F.n, u.getD i 0 = Real.sqrt (F.toMatrix⁻¹ ⟨i, hi⟩ ⟨i, hi⟩)) ∧
    (∀ (M : MultinomialLikelihood) (jac : Jacobian),
      M.uncertainties jac = Likelihood.uncertaintiesImpl (M.fisher_information_matrix jac)) ∧
    (∀ (P : PoissonLikelihood) (jac : Jacobian),
      P.uncertainties jac = Likelihood.uncertaintiesImpl (P.fisher_information_matrix jac)) := by
  have hdet : IsUnit F.toMatrix ↔ F.toMatrix.det ≠ 0 :=
    (Matrix.isUnit_iff_isUnit_det _).trans isUnit_iff_ne_zero
  have hstep : Likelihood.uncertaintiesImpl (.ok F) =
      Except.bind (npLinalgInv F) (fun inv_fisher => Except.ok (npSqrt (npDiag inv_fisher))) :=
    rfl
  refine ⟨?_, ?_, fun M jac => rfl, fun P jac => rfl⟩
  · intro h
    have h0 : F.toMatrix.det = 0 := by
      by_contra hne
      exact h (hdet.mpr hne)
    rw [hstep]
    unfold npLinalgInv
    rw [if_pos h0]
    rfl
  · intro h
    have hne : F.toMatrix.det ≠ 0 := hdet.mp h
    have hinv : npLinalgInv F = .ok ⟨F.n, fun a b =>
        if hab : a < F.n ∧ b < F.n then F.toMatrix⁻¹ ⟨a, hab.1⟩ ⟨b, hab.2⟩ else 0⟩ := by
      unfold npLinalgInv
      rw [if_neg hne]
    refine ⟨npSqrt (npDiag ⟨F.n, fun a b =>
        if hab : a < F.n ∧ b < F.n then F.toMatrix⁻¹ ⟨a, hab.1⟩ ⟨b, hab.2⟩ else 0⟩), ?_, ?_, ?_⟩
    · rw [hstep, hinv]
      rfl
    · unfold npSqrt npDiag
      rw [List.length_map, List.length_map, List.length_range]
    · intro i hi
      unfold npSqrt npDiag
      rw [List.map_map, getD_map_range _ F.n i hi 0]
      show Real.sqrt (if hab : i < F.n ∧ i < F.n then _ else 0) = _
      rw [dif_pos ⟨hi, hi⟩]

/-- C8: fit passes evaluate, the initial guess and the method name (default
Nelder-Mead) to the Optimizer Provider, stores whatever result the optimizer
returns -- the minimizer is arbitrary here, so in particular results flagged
unsuccessful are stored as-is -- as the instance's opt_result, returns that
same result to the caller, and a subsequent fisher_information_matrix call
proceeds with the stored parameters.  This holds for both likelihood variants
and for the L1Norm loss function. -/
theorem fit_stores_and_returns (minimizeL : Minimizer ℝ)
    (minimizeLoss : Minimizer (Except PyError ℝ)) (M : MultinomialLikelihood)
    (P : PoissonLikelihood) (s : L1Norm) (x0 : Vec) (method : String) (jac : Jacobian) :
    (M.fit minimizeL x0 method).1 = minimizeL M.evaluate x0 method ∧
    (M.fit minimizeL x0 method).2.opt_result = some ((M.fit minimizeL x0 method).1) ∧
    M.fitDefault minimizeL x0 = M.fit minimizeL x0 defaultMethod ∧
    (P.fit minimizeL x0 method).1 = minimizeL P.evaluate x0 method ∧
    (P.fit minimizeL x0 method).2.opt_result = some ((P.fit minimizeL x0 method).1) ∧
    P.fitDefault minimizeL x0 = P.fit minimizeL x0 defaultMethod ∧
    (s.fit minimizeLoss x0 method).1 = minimizeLoss s.evaluate x0 method ∧
    (s.fit minimizeLoss x0 method).2.opt_result = some ((s.fit minimizeLoss x0 method).1) ∧
    s.fitDefault minimizeLoss x0 = s.fit minimizeLoss x0 defaultMethod ∧
    (M.fit minimizeL x0 method).2.fisher_information_matrix jac =
      .ok ((M.fit minimizeL x0 method).2.fisherMatrixAt jac ((M.fit minimizeL x0 method).1)) :=
  ⟨rfl, rfl, rfl, rfl, rfl, rfl, rfl, rfl, rfl, rfl⟩

/-- C9: L1Norm.evaluate computes the sum of absolute residuals between data
and the model output; when a regularization function was supplied at
construction it additionally adds the regularization term weighted by the last
parameter, with the model and the regularization applied to the remaining
parameters (passed as one tuple argument).  The arrays combined elementwise
are assumed to have the length of data, matching numpy's same-shape case. -/
theorem l1norm_evaluate_spec (data : Vec) (model reg : PyFunc) (params theta : Vec) (wl : ℝ)
    (hm : (vecCall model theta).length = data.length)
    (hr : (vecCall reg theta).length = data.length) :
    (L1Norm.init data model none).evaluate params
        = .ok (sumAbsResiduals data (starCall model params)) ∧
    (L1Norm.init data model (some reg)).evaluate (theta ++ [wl])
        = .ok (sumAbsResiduals data (vecCall model theta) + wl * npSum (vecCall reg theta)) := by
  constructor
  · show L1Norm.evaluate_wo_regularization (L1Norm.init data model none) params = _
    unfold L1Norm.evaluate_wo_regularization
    rw [npAbs_npSub]
    rfl
  · have key : npNansum (npAdd (npAbs (npSub data (vecCall model theta)))
        (npSMul wl (vecCall reg theta)))
          = sumAbsResiduals data (vecCall model theta) + wl * npSum (vecCall reg theta) := by
      rw [npAbs_npSub]
      have hlen : (List.zipWith (fun a b => |a - b|) data (vecCall model theta)).length
          = (vecCall reg theta).length := by
        rw [List.length_zipWith, hm, hr, min_self]
      exact npNansum_add_smul _ (vecCall reg theta) wl hlen
    have hred : (L1Norm.init data model (some reg)).evaluate (theta ++ [wl])
        = .ok (npNansum (npAdd (npAbs (npSub data (vecCall model theta)))
            (npSMul wl (vecCall reg theta)))) := by
      show L1Norm.evaluate_w_regularization (L1Norm.init data model (some reg)) (theta ++ [wl])
          = _
      unfold L1Norm.evaluate_w_regularization
      rw [List.getLast?_concat, List.dropLast_concat]
      rfl
    rw [hred, key]

/-- Witness for C9 at concrete inputs. -/
theorem l1norm_evaluate_spec_witness :
    (vecCall (constFun 0) []).length = ([0] : Vec).length ∧
    (vecCall (constFun 1) []).length = ([0] : Vec).length ∧
    ((L1Norm.init [0] (constFun 0) none).evaluate [0]
        = .ok (sumAbsResiduals [0] (starCall (constFun 0) [0])) ∧
      (L1Norm.init [0] (constFun 0) (some (constFun 1))).evaluate ([] ++ [2])
        = .ok (sumAbsResiduals [0] (vecCall (constFun 0) [])
            + 2 * npSum (vecCall (constFun 1) []))) :=
  ⟨rfl, rfl, l1norm_evaluate_spec [0] (constFun 0) (constFun 1) [0] [] 2 rfl rfl⟩

/-- C10 counterexample: an L1Norm constructed with a regularization function
evaluates successfully, but after assigning None to the regularization
property the same call raises TypeError, so evaluate's behaviour does depend
on regularization assignments made after construction, refuting the claim
that it depends only on the value present at construction time. -/
theorem l1norm_regularization_reassignment_counterexample :
    (L1Norm.init [0] (constFun 0) (some (constFun 1))).evaluate [5, 1] = .ok 1 ∧
    ((L1Norm.init [0] (constFun 0) (some (constFun 1))).regularization_set none).evaluate [5, 1]
      = .error .typeError := by
  constructor
  · have h : (L1Norm.init [0] (constFun 0) (some (constFun 1))).evaluate [5, 1]
        = .ok (npNansum (npAdd (npAbs (npSub [0] (vecCall (constFun 0) [5])))
            (npSMul 1 (vecCall (constFun 1) [5])))) := rfl
    rw [h]
    norm_num [vecCall, constFun, npNansum, npAdd, npAbs, npSub, npSMul]
  · rfl

/-- C10 (amended): the choice of evaluation path is fixed at construction --
the regularization property setter never rebinds the _evaluate slot, and an
instance constructed without regularization is wholly unaffected by later
assignments -- but the regularized path reads the regularization property at
call time: for an instance constructed with a function, assigning another
function is equivalent to having constructed with that function, and assigning
None makes evaluate raise TypeError. -/
theorem l1norm_path_fixed_at_construction (data : Vec) (model g g' : PyFunc)
    (f f' : Option PyFunc) (params theta : Vec) (wl : ℝ) :
    ((L1Norm.init data model f).regularization_set f').evaluatePath
        = (L1Norm.init data model f).evaluatePath ∧
    ((L1Norm.init data model none).regularization_set f').evaluate params
        = (L1Norm.init data model none).evaluate params ∧
    (L1Norm.init data model (some g)).regularization_set (some g')
        = L1Norm.init data model (some g') ∧
    ((L1Norm.init data model (some g)).regularization_set none).evaluate (theta ++ [wl])
        = .error .typeError := by
  refine ⟨?_, ?_, ?_, ?_⟩
  · rcases f' with _ | f' <;> rfl
  · rcases f' with _ | f' <;> rfl
  · rfl
  · show L1Norm.evaluate_w_regularization
        ((L1Norm.init data model (some g)).regularization_set none) (theta ++ [wl]) = _
    unfold L1Norm.evaluate_w_regularization
    rw [List.getLast?_concat]
    rfl

/-- Witness for C7 at the invertible 1 × 1 all-ones array. -/
theorem uncertainties_spec_witness :
    IsUnit (oneNdArr.toMatrix) ∧
    (∃ u, Likelihood.uncertaintiesImpl (.ok oneNdArr) = .ok u ∧ u.length = oneNdArr.n ∧
      ∀ i, ∀ hi : i < oneNdArr.n,
        u.getD i 0 = Real.sqrt (oneNdArr.toMatrix⁻¹ ⟨i, hi⟩ ⟨i, hi⟩)) := by
  have h1 : oneNdArr.toMatrix = (1 : Matrix (Fin 1) (Fin 1) ℝ) := by
    ext i j
    have h2 : (i : ℕ) < 1 := i.isLt
    have h3 : (j : ℕ) < 1 := j.isLt
    have hij : i = j := Fin.ext (by omega)
    subst hij
    simp [oneNdArr, NdArr.toMatrix, Matrix.one_apply_eq]
  have hu : IsUnit (oneNdArr.toMatrix) := by
    rw [h1]
    exact isUnit_one
  exact ⟨hu, (uncertainties_spec oneNdArr).2.1 hu⟩
